import Mathlib

/-!
Verification development for the Arkra lender search engine scraper
(`src/main.py`).  The Python program is shallowly embedded: JSON values
become an inductive type, Python dicts become association lists with
first-occurrence lookup and in-place update, Python string operations
(`strip`, `find`, `rfind`, slicing with negative indices) are modelled
over `List Char`, and the external services (Playwright page fetch,
Gemini call, `json.loads`) are oracles/parameters supplied to the
embedded control flow.
-/

set_option maxRecDepth 4000

/-- The opening brace character, written with an escape. -/
def lbrace : Char := '\x7b'

/-- The closing brace character, written with an escape. -/
def rbrace : Char := '\x7d'

/-- JSON values, as produced by Python's `json.loads`.
Numbers are modelled as integers; no claim depends on non-integral numbers. -/
inductive Json where
  | null : Json
  | bool : Bool → Json
  | num : Int → Json
  | str : String → Json
  | arr : List Json → Json
  | obj : List (String × Json) → Json

/-- Python truthiness of a JSON value (`None`, `False`, `0`, `""`, `[]`,
and the empty dict are falsy). -/
def jtruthy : Json → Bool
  | Json.null => false
  | Json.bool b => b
  | Json.num n => n != 0
  | Json.str s => s != ""
  | Json.arr xs => !xs.isEmpty
  | Json.obj kvs => !kvs.isEmpty

/-- Whether a JSON value is an object (a Python dict). -/
def jIsObj : Json → Bool
  | Json.obj _ => true
  | _ => false

/-- Python `v == "lit"` comparison of a JSON value against a string literal:
true exactly when `v` is that string (comparing a non-string to a string is
`False` in Python, not an error). -/
def jeqStr (v : Json) (s : String) : Bool :=
  match v with
  | Json.str t => t == s
  | _ => false

/-- A Python dict with string keys and JSON values, in insertion order. -/
abbrev Record : Type := List (String × Json)

/-- `d.get(k)` / `k in d`: first-occurrence lookup. -/
def dictGet (d : Record) (k : String) : Option Json :=
  match d with
  | [] => none
  | (k', v) :: rest => if k' = k then some v else dictGet rest k

/-- `d[k] = v`: update the value at the first occurrence of `k` in place,
or append a new binding when `k` is absent (Python dict assignment). -/
def dictSet (d : Record) (k : String) (v : Json) : Record :=
  match d with
  | [] => [(k, v)]
  | (k', v') :: rest =>
      if k' = k then (k', v) :: rest else (k', v') :: dictSet rest k v

/-- Build a Python dict from a key/value list by repeated assignment;
models how `json.loads` collapses duplicate keys (last value wins,
first-insertion position kept). -/
def toDict (kvs : List (String × Json)) : Record :=
  kvs.foldl (fun d kv => dictSet d kv.1 kv.2) []

/-- Whitespace characters stripped by Python's `str.strip()` (ASCII part). -/
def isPyWs (c : Char) : Bool :=
  c == ' ' || c == '\t' || c == '\n' || c == '\r' || c == '\x0b' || c == '\x0c'

/-- `str.strip()` on a character list. -/
def stripChars (l : List Char) : List Char :=
  ((l.dropWhile isPyWs).reverse.dropWhile isPyWs).reverse

/-- `str.strip()`. -/
def pyStripStr (s : String) : String := String.mk (stripChars s.data)

/-- Index of the first occurrence of `c`, if any (`str.find` before the
`-1` encoding). -/
def firstIdx (c : Char) : List Char → Option Nat
  | [] => none
  | x :: xs => if x = c then some 0 else (firstIdx c xs).map (· + 1)

/-- Index of the last occurrence of `c`, if any (`str.rfind` before the
`-1` encoding). -/
def lastIdx (c : Char) : List Char → Option Nat
  | [] => none
  | x :: xs =>
      match lastIdx c xs with
      | some i => some (i + 1)
      | none => if x = c then some 0 else none

/-- Python's `find`/`rfind` result encoding: the index, or `-1` if absent. -/
def idxToInt : Option Nat → Int
  | some i => (i : Int)
  | none => -1

/-- Clamp a Python slice index to `[0, n]`: negative indices count from the
end (and clamp at `0`), positive ones clamp at `n`. -/
def clampIdx (n : Nat) (i : Int) : Nat :=
  if i < 0 then ((n : Int) + i).toNat else min n i.toNat

/-- Python slicing `l[start:stop]` with full negative-index semantics. -/
def pySliceChars (l : List Char) (start stop : Int) : List Char :=
  let st := clampIdx l.length start
  let sp := clampIdx l.length stop
  (l.drop st).take (sp - st)

/-- `text.startswith(the opening brace)`. -/
def startsBrace : List Char → Bool
  | [] => false
  | c :: _ => c == lbrace

/-- The candidate JSON text chosen by `parse_with_gemini` from the stripped
response `t` (main.py lines 60-64): `t` itself when it starts with a brace,
otherwise the slice `t[t.find(lb) : t.rfind(rb) + 1]`. -/
def candChars (t : List Char) : List Char :=
  if startsBrace t then t
  else pySliceChars t (idxToInt (firstIdx lbrace t)) (idxToInt (lastIdx rbrace t) + 1)

/-- `candChars` on strings. -/
def candStr (s : String) : String := String.mk (candChars s.data)

/-- `parse_with_gemini` (main.py lines 22-68), with the two external
effects as parameters: `jl` models `json.loads` (which may raise, hence
`Except`), and `svc` is the outcome of the Gemini call (`.error` when
`generate_content`/`response.text` raises).  The whole body runs inside
`try/except`, so any raised error yields `None`; otherwise the stripped
response is sliced to a candidate JSON text and decoded, and the decoded
value is returned without any schema or field validation. -/
def parse_with_gemini (jl : String → Except String Json)
    (svc : Except String String) : Option Json :=
  match svc with
  | Except.error _ => none
  | Except.ok rt =>
      match jl (candStr (pyStripStr rt)) with
      | Except.ok v => some v
      | Except.error _ => none

/-- Consume a JSON string literal: expects a leading double quote, reads to
the closing quote (no escape handling; witnesses use escape-free strings). -/
def takeStrLit : List Char → List Char → Option (String × List Char)
  | [], _ => none
  | c :: rest, acc =>
      if c = '"' then some (String.mk acc.reverse, rest)
      else takeStrLit rest (c :: acc)

/-- Skip spaces, tabs, newlines. -/
def skipWs (l : List Char) : List Char := l.dropWhile isPyWs

/-- Open a JSON string literal. -/
def parseStrLit : List Char → Option (String × List Char)
  | [] => none
  | c :: rest => if c = '"' then takeStrLit rest [] else none

/-- Parse the members of a flat JSON object of string values, after the
opening brace; fuelled recursion. -/
def parseMembers : Nat → List Char → Option (List (String × Json) × List Char)
  | 0, _ => none
  | fuel + 1, cs =>
      match parseStrLit cs with
      | none => none
      | some (k, cs1) =>
          match skipWs cs1 with
          | ':' :: cs3 =>
              match parseStrLit (skipWs cs3) with
              | none => none
              | some (v, cs4) =>
                  match skipWs cs4 with
                  | ',' :: cs6 =>
                      match parseMembers fuel (skipWs cs6) with
                      | some (kvs, rest) => some ((k, Json.str v) :: kvs, rest)
                      | none => none
                  | c :: cs6 =>
                      if c = rbrace then some ([(k, Json.str v)], cs6) else none
                  | [] => none
          | _ => none

/-- Decode a flat JSON object whose values are strings; `none` on anything
else.  A minimal concrete stand-in for `json.loads`, sufficient for the
concrete responses exercised by the claims. -/
def parseFlatObj (l : List Char) : Option (List (String × Json)) :=
  match l with
  | c :: rest =>
      if c = lbrace then
        match skipWs rest with
        | c2 :: rest2 =>
            if c2 = rbrace then
              if skipWs rest2 = [] then some [] else none
            else
              match parseMembers l.length (c2 :: rest2) with
              | some (kvs, tail) => if skipWs tail = [] then some kvs else none
              | none => none
        | [] => none
      else none
  | [] => none

/-- Concrete decoder used in witnesses: models `json.loads` on flat
string-valued objects, raising (an `Except.error`) on everything else.
By construction it only ever returns objects, as `json.loads` does for
texts that begin with an opening brace. -/
def jloadsMini (s : String) : Except String Json :=
  match parseFlatObj s.data with
  | some kvs => Except.ok (Json.obj kvs)
  | none => Except.error "decode error"

/-- A static lender descriptor (`name`/`url`/`type` keys of the dicts in
`LENDERS`, main.py lines 114-120). -/
structure Lender where
  name : String
  url : String
  type : String

/-- The hardcoded lender list (main.py lines 114-120). -/
def LENDERS : List Lender :=
  [⟨"36th Street Capital", "https://36thstreetcapital.com/", "Independent Lender"⟩,
   ⟨"Alliance Funding Group", "https://afg.com/", "Independent Lender"⟩,
   ⟨"Apple Bank", "https://www.applebank.com/", "Bank"⟩,
   ⟨"Associated Bank Equipment Finance", "https://www.associatedbank.com", "Bank"⟩,
   ⟨"Atlantic Union Equipment Finance", "https://www.atlanticunionbank.com/", "Bank"⟩]

/-- The line `log_failure` appends to `scrape_errors.log` (main.py
lines 122-124), without the trailing newline. -/
def mkFailLine (l : Lender) (reason : String) : String :=
  l.name ++ " | " ++ l.url ++ " | " ++ reason

/-- Word characters of the regex `\b` boundary (`[A-Za-z0-9_]`; the ASCII
fragment of Python's Unicode `\w`, which covers every keyword and every
text the claims exercise). -/
def isWordChar (c : Char) : Bool := c.isAlphanum || c == '_'

/-- Case-insensitive character-list equality (`re.IGNORECASE`). -/
def lowerEq (a b : List Char) : Bool :=
  a.map Char.toLower == b.map Char.toLower

/-- Regex word-boundary conditions around a candidate match of length
`len` at position `i` of `text`: the characters just before and just after
the match (when they exist) are not word characters.  Exact for keywords
that start and end with word characters, as all table keywords do. -/
def boundaryOk (text : List Char) (i len : Nat) : Bool :=
  (i == 0 || !isWordChar (text.getD (i - 1) ' ')) &&
  (i + len ≥ text.length || !isWordChar (text.getD (i + len) ' '))

/-- `re.search(rf"\b..keyword..\b", text, re.IGNORECASE) is not None`
(main.py line 87): some position of `text` carries a case-insensitive
occurrence of `kw` with word boundaries on both sides. -/
def searchBoundary (kw text : String) : Bool :=
  let ks := kw.data
  let ts := text.data
  (List.range (ts.length + 1)).any fun i =>
    ((ts.drop i).take ks.length).length == ks.length &&
    lowerEq ((ts.drop i).take ks.length) ks &&
    boundaryOk ts i ks.length

/-- The static keyword table of the fallback parser (main.py lines 75-83),
in source order. -/
def product_keywords : List (String × List String) :=
  [("Term Loans", ["term loan", "term financing"]),
   ("Unsecured Loans", ["unsecured loan", "no collateral"]),
   ("Equipment Loans & Leases", ["equipment financing", "equipment loan", "equipment lease"]),
   ("Lines of Credit", ["line of credit", "credit line"]),
   ("Corporate Credit Cards", ["business credit card", "corporate card"]),
   ("Venture Debt", ["venture debt"]),
   ("Vendor Financing", ["vendor financing", "dealer financing"])]

/-- The `products` list accumulated by the fallback parser's loop
(main.py lines 85-89): the categories, in table order, having at least one
matching keyword (the `break` after the first matching keyword has no
further effect than membership). -/
def fallback_products (text : String) : List String :=
  (product_keywords.filter fun pk => pk.2.any fun k => searchBoundary k text).map Prod.fst

/-- `fallback_parse_lender_data` (main.py lines 71-111): the returned dict,
in source key order. -/
def fallback_parse_lender_data (text : String) (lender : Lender) (as_of : String) : Record :=
  let products := fallback_products text
  [("Lender Name", Json.str lender.name),
   ("Lender Type", Json.str lender.type),
   ("General Product Types",
      Json.str (if products.isEmpty then "N/A" else String.intercalate ", " products)),
   ("Finance Reasons", Json.str "N/A"),
   ("Sub-Product Type", Json.str "N/A"),
   ("Loan Amount", Json.str "N/A"),
   ("Starting Rate", Json.str "N/A"),
   ("Term Length", Json.str "N/A"),
   ("Origination Fee", Json.str "N/A"),
   ("Min Time in Business", Json.str "N/A"),
   ("Min Revenue", Json.str "N/A"),
   ("FICO Score", Json.str "N/A"),
   ("Online Application Status", Json.str "N/A"),
   ("Product Page URL", Json.str lender.url),
   ("Geography Served", Json.str "N/A"),
   ("Veteran Programs", Json.str "N/A"),
   ("Minority Programs", Json.str "N/A"),
   ("Notes", Json.str "Parsed with fallback parser"),
   ("As-of Date", Json.str as_of)]

/-- Line 178: `parsed["As-of Date"] = as_of`. -/
def asofSet (p : Record) (as_of : String) : Record :=
  dictSet p "As-of Date" (Json.str as_of)

/-- The value of `parsed.get("Lender Name") or lender["name"]` (line 179):
the current value when present and truthy, else the descriptor's name. -/
def normNameVal (p : Record) (l : Lender) : Json :=
  match dictGet p "Lender Name" with
  | some v => if jtruthy v then v else Json.str l.name
  | none => Json.str l.name

/-- Line 179: `parsed["Lender Name"] = parsed.get("Lender Name") or lender["name"]`. -/
def nameFix (p : Record) (l : Lender) : Record :=
  dictSet p "Lender Name" (normNameVal p l)

/-- The test of line 180: `"Lender Type" not in parsed or parsed["Lender Type"] == "N/A"`. -/
def typeCond (p : Record) : Bool :=
  match dictGet p "Lender Type" with
  | none => true
  | some v => jeqStr v "N/A"

/-- Lines 180-181: conditionally `parsed["Lender Type"] = lender_type`. -/
def typeFix (p : Record) (l : Lender) : Record :=
  if typeCond p then dictSet p "Lender Type" (Json.str l.type) else p

/-- The record normalization applied in `scrape` after either extractor
(main.py lines 178-181): force "As-of Date" to the run date; replace a
missing or falsy "Lender Name" by the descriptor's name (`get(..) or ..`);
replace a missing "Lender Type", or one equal to the string "N/A", by the
descriptor's type. -/
def normalize_record (parsed : Record) (l : Lender) (as_of : String) : Record :=
  typeFix (nameFix (asofSet parsed as_of) l) l

/-- Oracle outcomes for the external effects of one lender's processing in
`scrape`: `fetch` is the outcome of `get_page_html` (`.error` when it
raises, `.ok none`/`.ok (some h)` for its return value), `textR` the
outcome of `BeautifulSoup(..).get_text(..)`, and `svc` the outcome of the
Gemini call inside `parse_with_gemini`. -/
structure ProcEnv where
  fetch : Except String (Option String)
  textR : Except String String
  svc : Except String String

/-- One iteration of the `scrape` loop (main.py lines 152-188) for lender
`l` under oracle `e`: returns the record appended to `rows` (if any) and
the lines appended to the error log.  The `if not html` test treats both
`None` and the empty string as a failed fetch; a successful AI parse that
is not a dict raises a `TypeError` at the `parsed["As-of Date"]`
assignment, which the per-lender `except` turns into a logged skip. -/
def processLender (jl : String → Except String Json) (as_of : String)
    (l : Lender) (e : ProcEnv) : Option Record × List String :=
  match e.fetch with
  | Except.error ex => (none, [mkFailLine l ("Exception: " ++ ex)])
  | Except.ok none => (none, [mkFailLine l "No HTML returned"])
  | Except.ok (some htm) =>
      if htm = "" then (none, [mkFailLine l "No HTML returned"])
      else
        match e.textR with
        | Except.error ex => (none, [mkFailLine l ("Exception: " ++ ex)])
        | Except.ok text =>
            match parse_with_gemini jl e.svc with
            | some (Json.obj kvs) => (some (normalize_record (toDict kvs) l as_of), [])
            | some _ => (none, [mkFailLine l "Exception: TypeError"])
            | none =>
                (some (normalize_record (fallback_parse_lender_data text l as_of) l as_of),
                 [mkFailLine l "Gemini failed, used fallback"])

/-- The `scrape` loop (main.py lines 148-190) over a list of lenders
paired with their external-effect oracles, with the single run date
`as_of` computed once before the loop: accumulates collected records and
error-log lines in order. -/
def scrape (jl : String → Except String Json) (as_of : String) :
    List (Lender × ProcEnv) → List Record × List String
  | [] => ([], [])
  | (l, e) :: rest =>
      ((processLender jl as_of l e).1.toList ++ (scrape jl as_of rest).1,
       (processLender jl as_of l e).2 ++ (scrape jl as_of rest).2)

/-- Oracle outcomes for the steps of `get_page_html`: browser launch,
page creation, and the body of the `try` block (routing, `page.goto`,
`page.content()`), the last yielding the page markup on success. -/
structure FetchEnv where
  launch : Except String Unit
  newPage : Except String Unit
  body : Except String String

/-- Observable outcome of `get_page_html`: its result (`.error` when the
call raises to the caller), whether a browser was launched, and whether
`browser.close()` ran. -/
structure FetchOut where
  result : Except String (Option String)
  browserAcquired : Bool
  browserClosed : Bool

/-- `get_page_html` (main.py lines 129-145).  `launch` and `new_page` run
before the `try`, so their exceptions propagate and skip the `finally`
close; inside the `try`, any exception is caught, `html` is set to `None`,
and the `finally` closes the browser before `html` is returned. -/
def get_page_html (env : FetchEnv) : FetchOut :=
  match env.launch with
  | Except.error e => ⟨Except.error e, false, false⟩
  | Except.ok _ =>
      match env.newPage with
      | Except.error e => ⟨Except.error e, true, false⟩
      | Except.ok _ =>
          match env.body with
          | Except.ok htm => ⟨Except.ok (some htm), true, true⟩
          | Except.error _ => ⟨Except.ok none, true, true⟩

/-- Rendering of one JSON value as a CSV cell (`csv` writes `None` as the
empty string and other values via `str`; the precise `str` text of
composite values is irrelevant to every claim). -/
def jsonCell : Json → String
  | Json.null => ""
  | Json.bool b => if b then "True" else "False"
  | Json.num n => toString n
  | Json.str s => s
  | Json.arr _ => "<arr>"
  | Json.obj _ => "<obj>"

/-- The cells of one CSV data row for record `r` under the header `keys`:
missing keys become the `DictWriter` default `""`. -/
def csvRow (keys : List String) (r : Record) : List String :=
  keys.map fun k => ((dictGet r k).map jsonCell).getD ""

/-- Whether `r` has a key outside `keys` (`DictWriter` raises `ValueError`
on such a record). -/
def rowHasExtra (keys : List String) (r : Record) : Bool :=
  r.any fun kv => !(keys.contains kv.1)

/-- Outcome of `write_csv`: no file written (empty input), a complete
file as a list of rows (header first), or a `ValueError` raised mid-write
with the rows already written. -/
inductive CsvResult where
  | noFile : CsvResult
  | file : List (List String) → CsvResult
  | raised : List (List String) → CsvResult

/-- `writer.writerows(rows)`: emit one row per record, raising on a record
with a key outside the header. -/
def writeRowsAux (keys : List String) : List Record → List (List String) → CsvResult
  | [], acc => CsvResult.file acc.reverse
  | r :: rs, acc =>
      if rowHasExtra keys r then CsvResult.raised acc.reverse
      else writeRowsAux keys rs (csvRow keys r :: acc)

/-- `write_csv` (main.py lines 193-202): warn and write nothing on an
empty record list; otherwise take the field names from the first record's
keys in insertion order, write the header row, then one row per record. -/
def write_csv : List Record → CsvResult
  | [] => CsvResult.noFile
  | r0 :: rest => writeRowsAux (r0.map Prod.fst) (r0 :: rest) [r0.map Prod.fst]

theorem dictGet_dictSet_self (d : Record) (k : String) (v : Json) :
    dictGet (dictSet d k v) k = some v := by
  induction d with
  | nil => simp [dictGet, dictSet]
  | cons kv rest ih =>
      obtain ⟨k', v'⟩ := kv
      by_cases h : k' = k
      · simp [dictGet, dictSet, h]
      · simp [dictGet, dictSet, h, ih]

theorem dictGet_dictSet_ne (d : Record) (k : String) (v : Json) (k' : String)
    (h : k' ≠ k) : dictGet (dictSet d k v) k' = dictGet d k' := by
  have hne : ¬ k = k' := fun hk => h hk.symm
  induction d with
  | nil => simp [dictGet, dictSet, hne]
  | cons kv rest ih =>
      obtain ⟨k₀, v₀⟩ := kv
      by_cases h0 : k₀ = k
      · subst h0
        simp [dictGet, dictSet, hne]
      · simp [dictGet, dictSet, h0, ih]

theorem jtruthy_str_of_ne (s : String) (h : s ≠ "") : jtruthy (Json.str s) = true := by
  simpa [jtruthy] using h

theorem jeqStr_str_false (s t : String) (h : s ≠ t) : jeqStr (Json.str s) t = false := by
  simpa [jeqStr] using h

theorem typeFix_other (p : Record) (l : Lender) (k : String) (h : k ≠ "Lender Type") :
    dictGet (typeFix p l) k = dictGet p k := by
  unfold typeFix
  split
  · exact dictGet_dictSet_ne _ _ _ _ h
  · rfl

theorem normNameVal_truthy (p : Record) (l : Lender) (hn : l.name ≠ "") :
    jtruthy (normNameVal p l) = true := by
  unfold normNameVal
  cases hEq : dictGet p "Lender Name" with
  | none => exact jtruthy_str_of_ne _ hn
  | some v =>
      by_cases hv : jtruthy v
      · simp [hv]
      · simpa [hv] using jtruthy_str_of_ne _ hn

theorem normalize_asof (p : Record) (l : Lender) (d : String) :
    dictGet (normalize_record p l d) "As-of Date" = some (Json.str d) := by
  unfold normalize_record
  rw [typeFix_other _ _ _ (by decide)]
  unfold nameFix
  rw [dictGet_dictSet_ne _ _ _ _ (by decide)]
  exact dictGet_dictSet_self _ _ _

theorem normalize_name (p : Record) (l : Lender) (d : String) (hn : l.name ≠ "") :
    ∃ v, dictGet (normalize_record p l d) "Lender Name" = some v ∧ jtruthy v = true := by
  unfold normalize_record
  rw [typeFix_other _ _ _ (by decide)]
  unfold nameFix
  exact ⟨_, dictGet_dictSet_self _ _ _, normNameVal_truthy _ _ hn⟩

theorem normalize_type (p : Record) (l : Lender) (d : String) (ht : l.type ≠ "N/A") :
    ∃ w, dictGet (normalize_record p l d) "Lender Type" = some w ∧ jeqStr w "N/A" = false := by
  unfold normalize_record
  unfold typeFix
  split
  · exact ⟨_, dictGet_dictSet_self _ _ _, jeqStr_str_false _ _ ht⟩
  · rename_i hcond
    unfold typeCond at hcond
    cases hT : dictGet (nameFix (asofSet p d) l) "Lender Type" with
    | none => rw [hT] at hcond; simp at hcond
    | some w =>
        refine ⟨w, rfl, ?_⟩
        rw [hT] at hcond
        simpa using hcond

theorem idxToInt_some (i : Nat) : idxToInt (some i) = (i : Int) := rfl

theorem idxToInt_none : idxToInt none = -1 := rfl

theorem clampIdx_nat (n i : Nat) : clampIdx n (i : Int) = min n i := by
  rw [clampIdx, if_neg (by omega)]
  omega

theorem clampIdx_neg_one (n : Nat) : clampIdx n (-1) = n - 1 := by
  rw [clampIdx, if_pos (by omega)]
  omega

theorem clampIdx_nat_succ (n j : Nat) : clampIdx n ((j : Int) + 1) = min n (j + 1) := by
  rw [clampIdx, if_neg (by omega)]
  omega

theorem firstIdx_decomp (c : Char) (l : List Char) (i : Nat)
    (h : firstIdx c l = some i) :
    ∃ pre post, l = pre ++ c :: post ∧ pre.length = i := by
  induction l generalizing i with
  | nil => simp [firstIdx] at h
  | cons x xs ih =>
      by_cases hx : x = c
      · subst hx
        rw [firstIdx, if_pos rfl] at h
        refine ⟨[], xs, rfl, ?_⟩
        simpa using Option.some_injective _ h
      · rw [firstIdx, if_neg hx] at h
        obtain ⟨j, hj, hji⟩ := Option.map_eq_some'.mp h
        obtain ⟨pre, post, hl, hlen⟩ := ih j hj
        refine ⟨x :: pre, post, by simp [hl], ?_⟩
        simp [hlen]
        omega

theorem lastIdx_decomp (c : Char) (l : List Char) (i : Nat)
    (h : lastIdx c l = some i) :
    ∃ pre post, l = pre ++ c :: post ∧ pre.length = i := by
  induction l generalizing i with
  | nil => simp [lastIdx] at h
  | cons x xs ih =>
      rw [lastIdx] at h
      cases hj : lastIdx c xs with
      | some j =>
          rw [hj] at h
          have hji : j + 1 = i := Option.some_injective _ h
          obtain ⟨pre, post, hl, hlen⟩ := ih j hj
          refine ⟨x :: pre, post, by simp [hl], ?_⟩
          simp [hlen]
          omega
      | none =>
          rw [hj] at h
          by_cases hx : x = c
          · rw [if_pos hx] at h
            subst hx
            refine ⟨[], xs, rfl, ?_⟩
            simpa using Option.some_injective _ h
          · rw [if_neg hx] at h
            simp at h

theorem candChars_cases (t : List Char) :
    candChars t = [] ∨ candChars t = [rbrace] ∨ ∃ r, candChars t = lbrace :: r := by
  unfold candChars
  by_cases hs : startsBrace t
  · rw [if_pos hs]
    cases t with
    | nil => simp [startsBrace] at hs
    | cons c r =>
        have hc : c = lbrace := by simpa [startsBrace] using hs
        exact Or.inr (Or.inr ⟨r, by rw [hc]⟩)
  · rw [if_neg hs]
    cases hf : firstIdx lbrace t with
    | some i =>
        obtain ⟨pre, post, hdec, hlen⟩ := firstIdx_decomp _ _ _ hf
        subst hdec
        have hn : (pre ++ lbrace :: post).length = pre.length + 1 + post.length := by
          simp
          omega
        have hst : clampIdx (pre ++ lbrace :: post).length (idxToInt (some i)) = pre.length := by
          rw [idxToInt_some, clampIdx_nat, hn, ← hlen]
          omega
        cases hl : lastIdx rbrace (pre ++ lbrace :: post) with
        | none =>
            left
            have hsp : clampIdx (pre ++ lbrace :: post).length (idxToInt (none : Option Nat) + 1) = 0 := by
              rw [idxToInt_none]
              rw [show (-1 : Int) + 1 = ((0 : Nat) : Int) from by omega, clampIdx_nat]
              omega
            rw [pySliceChars, hst, hsp]
            simp
        | some j =>
            have hjlt : j < (pre ++ lbrace :: post).length := by
              obtain ⟨pre', post', hdec', hlen'⟩ := lastIdx_decomp _ _ _ hl
              rw [hdec', ← hlen']
              simp
            have hsp : clampIdx (pre ++ lbrace :: post).length (idxToInt (some j) + 1) = j + 1 := by
              rw [idxToInt_some, clampIdx_nat_succ]
              omega
            rw [pySliceChars, hst, hsp]
            by_cases hij : j + 1 ≤ pre.length
            · left
              rw [Nat.sub_eq_zero_of_le hij]
              simp
            · right; right
              rw [List.drop_left]
              have hone : j + 1 - pre.length = (j - pre.length) + 1 := by omega
              rw [hone, List.take_succ_cons]
              exact ⟨_, rfl⟩
    | none =>
        cases hl : lastIdx rbrace t with
        | none =>
            left
            have hsp : clampIdx t.length (idxToInt (none : Option Nat) + 1) = 0 := by
              rw [idxToInt_none]
              rw [show (-1 : Int) + 1 = ((0 : Nat) : Int) from by omega, clampIdx_nat]
              omega
            rw [pySliceChars, hsp]
            simp
        | some j =>
            obtain ⟨pre, post, hdec, hlen⟩ := lastIdx_decomp _ _ _ hl
            subst hdec
            have hn : (pre ++ rbrace :: post).length = pre.length + 1 + post.length := by
              simp
              omega
            have hsp : clampIdx (pre ++ rbrace :: post).length (idxToInt (some j) + 1) = j + 1 := by
              rw [idxToInt_some, clampIdx_nat_succ, hn, ← hlen]
              omega
            have hst : clampIdx (pre ++ rbrace :: post).length (idxToInt (none : Option Nat)) =
                pre.length + post.length := by
              rw [idxToInt_none, clampIdx_neg_one, hn]
              omega
            rw [pySliceChars, hst, hsp]
            cases post with
            | nil =>
                right; left
                have h1 : pre.length + ([] : List Char).length = pre.length := by simp
                rw [h1, List.drop_left]
                have h2 : j + 1 - pre.length = 1 := by omega
                rw [h2]
                rfl
            | cons p ps =>
                left
                have h0 : j + 1 - (pre.length + (p :: ps).length) = 0 := by
                  rw [← hlen]
                  simp
                rw [h0]
                simp

/-- The result of `parse_with_gemini` is `None` or a JSON object, provided
the decoder behaves like `json.loads` on the three shapes of candidate
text the slicing can produce: it only returns objects on text starting
with an opening brace, and fails on the empty text and on a lone closing
brace. -/
theorem parse_result_isObj (jl : String → Except String Json)
    (h1 : ∀ s v, jl s = Except.ok v → startsBrace s.data = true → jIsObj v = true)
    (h2 : ∀ v, jl "" ≠ Except.ok v)
    (h3 : ∀ v, jl (String.mk [rbrace]) ≠ Except.ok v)
    (svc : Except String String) (v : Json)
    (h : parse_with_gemini jl svc = some v) : jIsObj v = true := by
  cases svc with
  | error e => simp [parse_with_gemini] at h
  | ok rt =>
      simp only [parse_with_gemini] at h
      cases hj : jl (candStr (pyStripStr rt)) with
      | error e => rw [hj] at h; simp at h
      | ok w =>
          rw [hj] at h
          simp only [Option.some.injEq] at h
          subst h
          rcases candChars_cases (pyStripStr rt).data with hc | hc | ⟨r, hc⟩
          · refine absurd hj ?_
            rw [show candStr (pyStripStr rt) = "" from congrArg String.mk hc]
            exact h2 w
          · refine absurd hj ?_
            rw [show candStr (pyStripStr rt) = String.mk [rbrace] from congrArg String.mk hc]
            exact h3 w
          · refine h1 _ _ hj ?_
            rw [show (candStr (pyStripStr rt)).data = lbrace :: r from hc]
            simp [startsBrace]

theorem jloadsMini_obj (s : String) (v : Json) (h : jloadsMini s = Except.ok v) :
    jIsObj v = true := by
  unfold jloadsMini at h
  cases hp : parseFlatObj s.data with
  | some kvs =>
      rw [hp] at h
      cases h
      rfl
  | none =>
      rw [hp] at h
      exact absurd h (by simp)

/-- Whether one lender's processing ends in the FAILED state (no record,
one error-log line): a raising or empty fetch, a raising text reduction,
or an AI parse result that is not a dict (the normalization then raises a
`TypeError`). -/
def lenderFails (jl : String → Except String Json) (e : ProcEnv) : Bool :=
  match e.fetch with
  | Except.error _ => true
  | Except.ok none => true
  | Except.ok (some htm) =>
      if htm = "" then true
      else
        match e.textR with
        | Except.error _ => true
        | Except.ok _ =>
            match parse_with_gemini jl e.svc with
            | some v => !jIsObj v
            | none => false

theorem scrape_append (jl : String → Except String Json) (as_of : String)
    (xs ys : List (Lender × ProcEnv)) :
    scrape jl as_of (xs ++ ys) =
      ((scrape jl as_of xs).1 ++ (scrape jl as_of ys).1,
       (scrape jl as_of xs).2 ++ (scrape jl as_of ys).2) := by
  induction xs with
  | nil => simp [scrape]
  | cons p rest ih =>
      obtain ⟨l, e⟩ := p
      simp [scrape, ih]

theorem processLender_fail (jl : String → Except String Json) (as_of : String)
    (l : Lender) (e : ProcEnv) (h : lenderFails jl e = true) :
    (processLender jl as_of l e).1 = none ∧
    ∃ reason, (processLender jl as_of l e).2 = [mkFailLine l reason] := by
  obtain ⟨fe, te, sv⟩ := e
  cases fe with
  | error ex => exact ⟨rfl, ⟨_, rfl⟩⟩
  | ok ho =>
      cases ho with
      | none => exact ⟨rfl, ⟨_, rfl⟩⟩
      | some htm =>
          by_cases hh : htm = ""
          · refine ⟨?_, ⟨"No HTML returned", ?_⟩⟩ <;> simp [processLender, hh]
          · cases te with
            | error ex =>
                refine ⟨?_, ⟨"Exception: " ++ ex, ?_⟩⟩ <;> simp [processLender, hh]
            | ok text =>
                simp only [lenderFails, hh, if_neg] at h
                cases hp : parse_with_gemini jl sv with
                | none => rw [hp] at h; simp at h
                | some v =>
                    rw [hp] at h
                    cases v with
                    | obj kvs => simp [jIsObj] at h
                    | null =>
                        refine ⟨?_, ⟨"Exception: TypeError", ?_⟩⟩ <;>
                          simp [processLender, hh, hp]
                    | bool b =>
                        refine ⟨?_, ⟨"Exception: TypeError", ?_⟩⟩ <;>
                          simp [processLender, hh, hp]
                    | num n =>
                        refine ⟨?_, ⟨"Exception: TypeError", ?_⟩⟩ <;>
                          simp [processLender, hh, hp]
                    | str s =>
                        refine ⟨?_, ⟨"Exception: TypeError", ?_⟩⟩ <;>
                          simp [processLender, hh, hp]
                    | arr xs =>
                        refine ⟨?_, ⟨"Exception: TypeError", ?_⟩⟩ <;>
                          simp [processLender, hh, hp]

theorem writeRowsAux_ok (keys : List String) (rs : List Record)
    (acc : List (List String)) (h : ∀ r ∈ rs, rowHasExtra keys r = false) :
    writeRowsAux keys rs acc = CsvResult.file (acc.reverse ++ rs.map (csvRow keys)) := by
  induction rs generalizing acc with
  | nil => simp [writeRowsAux]
  | cons r rest ih =>
      have hr : rowHasExtra keys r = false := h r (by simp)
      rw [writeRowsAux]
      rw [if_neg (by simp [hr])]
      rw [ih _ (fun r' hm => h r' (by simp [hm]))]
      simp

theorem fallback_products_nodup (text : String) : (fallback_products text).Nodup := by
  unfold fallback_products
  exact List.Nodup.sublist
    (List.Sublist.map Prod.fst (List.filter_sublist product_keywords)) (by decide)

theorem fallback_products_mem (text : String) (p : String) :
    p ∈ fallback_products text ↔
      ∃ kws, (p, kws) ∈ product_keywords ∧ ∃ k ∈ kws, searchBoundary k text = true := by
  unfold fallback_products
  constructor
  · intro hp
    obtain ⟨⟨p', kws⟩, hmem, hfst⟩ := List.mem_map.mp hp
    obtain ⟨hmem', hcond⟩ := List.mem_filter.mp hmem
    subst hfst
    refine ⟨kws, hmem', ?_⟩
    simpa [List.any_eq_true] using hcond
  · rintro ⟨kws, hmem, k, hk, hsb⟩
    apply List.mem_map.mpr
    refine ⟨(p, kws), List.mem_filter.mpr ⟨hmem, ?_⟩, rfl⟩
    simp only [List.any_eq_true]
    exact ⟨k, hk, hsb⟩

/-- Every record a `processLender` step appends is a `normalize_record`
of its lender and the run date. -/
theorem processLender_record (jl : String → Except String Json) (as_of : String)
    (l : Lender) (e : ProcEnv) (r : Record)
    (h : (processLender jl as_of l e).1 = some r) :
    ∃ p, r = normalize_record p l as_of := by
  obtain ⟨fe, te, sv⟩ := e
  cases fe with
  | error ex => simp [processLender] at h
  | ok ho =>
      cases ho with
      | none => simp [processLender] at h
      | some htm =>
          by_cases hh : htm = ""
          · simp [processLender, hh] at h
          · cases te with
            | error ex => simp [processLender, hh] at h
            | ok text =>
                cases hp : parse_with_gemini jl sv with
                | none =>
                    refine ⟨fallback_parse_lender_data text l as_of, ?_⟩
                    simp [processLender, hh, hp] at h
                    exact h.symm
                | some v =>
                    cases v with
                    | obj kvs =>
                        refine ⟨toDict kvs, ?_⟩
                        simp [processLender, hh, hp] at h
                        exact h.symm
                    | null => simp [processLender, hh, hp] at h
                    | bool b => simp [processLender, hh, hp] at h
                    | num n => simp [processLender, hh, hp] at h
                    | str s => simp [processLender, hh, hp] at h
                    | arr xs => simp [processLender, hh, hp] at h

/-- When the fetch yields non-empty markup, text reduction succeeds, and
the AI parse result can only be `None` or an object, the step collects
exactly one record: the normalized AI record or the normalized fallback
record (the latter with the fallback log line). -/
theorem processLender_success (jl : String → Except String Json) (as_of : String)
    (l : Lender) (e : ProcEnv) (htm t : String)
    (hf : e.fetch = Except.ok (some htm)) (hne : htm ≠ "")
    (ht : e.textR = Except.ok t)
    (hobj : ∀ v, parse_with_gemini jl e.svc = some v → jIsObj v = true) :
    (∃ kvs, parse_with_gemini jl e.svc = some (Json.obj kvs)
        ∧ processLender jl as_of l e = (some (normalize_record (toDict kvs) l as_of), []))
    ∨ (parse_with_gemini jl e.svc = none
        ∧ processLender jl as_of l e =
            (some (normalize_record (fallback_parse_lender_data t l as_of) l as_of),
             [mkFailLine l "Gemini failed, used fallback"])) := by
  obtain ⟨fe, te, sv⟩ := e
  simp only [] at hf ht hobj
  subst hf
  subst ht
  cases hp : parse_with_gemini jl sv with
  | none =>
      right
      exact ⟨rfl, by simp [processLender, hne, hp]⟩
  | some v =>
      left
      have hv := hobj v hp
      cases v with
      | obj kvs => exact ⟨kvs, rfl, by simp [processLender, hne, hp]⟩
      | null => simp [jIsObj] at hv
      | bool b => simp [jIsObj] at hv
      | num n => simp [jIsObj] at hv
      | str s => simp [jIsObj] at hv
      | arr xs => simp [jIsObj] at hv

/-- `jloadsMini` satisfies the object-shape property of `json.loads`. -/
theorem jloadsMini_shape (s : String) (v : Json) (h : jloadsMini s = Except.ok v)
    (_hb : startsBrace s.data = true) : jIsObj v = true :=
  jloadsMini_obj s v h

/-- `jloadsMini` fails on the empty text, as `json.loads` does. -/
theorem jloadsMini_empty (v : Json) (h : jloadsMini "" = Except.ok v) : False := by
  rw [show jloadsMini "" = Except.error "decode error" from rfl] at h
  exact Except.noConfusion h

/-- `jloadsMini` fails on a lone closing brace, as `json.loads` does. -/
theorem jloadsMini_rbrace (v : Json) (h : jloadsMini (String.mk [rbrace]) = Except.ok v) :
    False := by
  rw [show jloadsMini (String.mk [rbrace]) = Except.error "decode error" from rfl] at h
  exact Except.noConfusion h

/-- The first lender of `LENDERS`. -/
def lender0 : Lender :=
  ⟨"36th Street Capital", "https://36thstreetcapital.com/", "Independent Lender"⟩

/-- The second lender of `LENDERS`. -/
def lender1 : Lender :=
  ⟨"Alliance Funding Group", "https://afg.com/", "Independent Lender"⟩

/-- Oracle: successful fetch and text reduction; Gemini answers with a
JSON object whose "Lender Name" is the string "N/A". -/
def envNameNA : ProcEnv :=
  ⟨Except.ok (some "<p>x</p>"), Except.ok "x",
   Except.ok "\x7b\"Lender Name\": \"N/A\"\x7d"⟩

/-- Oracle: successful fetch and text reduction; Gemini answers
non-JSON text, forcing the fallback extractor. -/
def envFallback : ProcEnv :=
  ⟨Except.ok (some "<p>x</p>"), Except.ok "x", Except.ok "not json"⟩

/-- Oracle: successful fetch, but the text reduction raises. -/
def envTextErr : ProcEnv :=
  ⟨Except.ok (some "<p>x</p>"), Except.error "bs4 boom", Except.ok "not json"⟩

/-- Oracle: the fetch returns `None` (a caught Playwright failure). -/
def envFetchNone : ProcEnv :=
  ⟨Except.ok none, Except.ok "x", Except.ok "not json"⟩

/-- The record collected for `lender0` under `envNameNA`. -/
def recNameNA : Record :=
  [("Lender Name", Json.str "N/A"), ("As-of Date", Json.str "2026-10-12"),
   ("Lender Type", Json.str "Independent Lender")]

/-- The record collected for `lender0` under `envFallback`. -/
def recFallback : Record :=
  normalize_record (fallback_parse_lender_data "x" lender0 "2026-10-12") lender0 "2026-10-12"

/-- Every record in a `scrape` run's result list arose as
`normalize_record` of some extractor output, for some lender of the run. -/
theorem scrape_record_src (jl : String → Except String Json) (as_of : String)
    (xs : List (Lender × ProcEnv)) (r : Record)
    (hr : r ∈ (scrape jl as_of xs).1) :
    ∃ le, le ∈ xs ∧ ∃ p, r = normalize_record p le.1 as_of := by
  induction xs with
  | nil => simp [scrape] at hr
  | cons q rest ih =>
      obtain ⟨l, e⟩ := q
      simp only [scrape] at hr
      rcases List.mem_append.mp hr with h1 | h2
      · cases hopt : (processLender jl as_of l e).1 with
        | none => rw [hopt] at h1; simp at h1
        | some rr =>
            rw [hopt] at h1
            simp at h1
            subst h1
            obtain ⟨p, hp⟩ := processLender_record jl as_of l e _ hopt
            exact ⟨(l, e), by simp, p, hp⟩
      · obtain ⟨le, hle, p, hp⟩ := ih h2
        exact ⟨le, by simp [hle], p, hp⟩

example : pyStripStr "  not json " = "not json" := by rfl

/-- Claim C1 (corrected), amended statement: in any run over lenders with
a non-empty descriptor name and a descriptor type other than "N/A" (true
of every entry of `LENDERS`), every collected record carries a present and
truthy "Lender Name" (substituted from the descriptor when extraction
omits it or supplies a falsy value) and a present "Lender Type" that is
never the string "N/A" (substituted when missing or "N/A").  A "Lender
Name" equal to the non-empty string "N/A" is, however, kept as-is: the
name substitution tests only Python truthiness, not "N/A". -/
theorem c1_name_type_invariant (jl : String → Except String Json) (as_of : String)
    (xs : List (Lender × ProcEnv))
    (h : ∀ p, p ∈ xs → p.1.name ≠ "" ∧ p.1.type ≠ "N/A") :
    ∀ r, r ∈ (scrape jl as_of xs).1 →
      (∃ v, dictGet r "Lender Name" = some v ∧ jtruthy v = true)
      ∧ (∃ w, dictGet r "Lender Type" = some w ∧ jeqStr w "N/A" = false) := by
  intro r hr
  obtain ⟨le, hle, p, hp⟩ := scrape_record_src jl as_of xs r hr
  obtain ⟨hn, ht⟩ := h le hle
  subst hp
  exact ⟨normalize_name p le.1 as_of hn, normalize_type p le.1 as_of ht⟩

/-- Claim C1 counterexample: in a run over the first `LENDERS` entry in
which the extractor returns the object with "Lender Name" set to the
string "N/A", the collected record still has "Lender Name" equal to
"N/A" — the Record Normalizer does not substitute the descriptor name,
because "N/A" is a truthy (non-empty) string. -/
theorem c1_counterexample :
    lender0 ∈ LENDERS
    ∧ (scrape jloadsMini "2026-10-12" [(lender0, envNameNA)]).1 = [recNameNA]
    ∧ dictGet recNameNA "Lender Name" = some (Json.str "N/A") := by
  refine ⟨List.mem_cons_self _ _, ?_, rfl⟩
  rfl

/-- Claim C1 witness: the amended invariant applied to a concrete
one-lender run that takes the fallback path. -/
theorem c1_witness :
    (∃ v, dictGet recFallback "Lender Name" = some v ∧ jtruthy v = true)
    ∧ (∃ w, dictGet recFallback "Lender Type" = some w ∧ jeqStr w "N/A" = false) := by
  refine c1_name_type_invariant jloadsMini "2026-10-12" [(lender0, envFallback)]
    (by decide) recFallback ?_
  have hs : (scrape jloadsMini "2026-10-12" [(lender0, envFallback)]).1 = [recFallback] := by
    rfl
  rw [hs]
  exact List.mem_singleton.mpr rfl

/-- Claim C2 (corrected), amended statement: for every lender whose fetch
returns non-empty markup (the code treats `None` and `""` alike as a
failed fetch), whose text reduction does not raise, and with a decoder
obeying the `json.loads` shape guarantees, exactly one record is
collected — the normalized AI object or the normalized fallback record —
and it carries the run's single As-of Date; moreover every record of any
run carries that run date. -/
theorem c2_one_record_per_fetched_lender (jl : String → Except String Json)
    (h1 : ∀ s v, jl s = Except.ok v → startsBrace s.data = true → jIsObj v = true)
    (h2 : ∀ v, jl "" ≠ Except.ok v)
    (h3 : ∀ v, jl (String.mk [rbrace]) ≠ Except.ok v)
    (as_of : String) :
    (∀ l e htm t, e.fetch = Except.ok (some htm) → htm ≠ "" →
        e.textR = Except.ok t →
      ∃ r, (processLender jl as_of l e).1 = some r
        ∧ dictGet r "As-of Date" = some (Json.str as_of)
        ∧ ((∃ kvs, r = normalize_record (toDict kvs) l as_of)
            ∨ r = normalize_record (fallback_parse_lender_data t l as_of) l as_of))
    ∧ (∀ xs r, r ∈ (scrape jl as_of xs).1 →
        dictGet r "As-of Date" = some (Json.str as_of)) := by
  constructor
  · intro l e htm t hf hne ht
    have hobj : ∀ v, parse_with_gemini jl e.svc = some v → jIsObj v = true :=
      fun v hv => parse_result_isObj jl h1 h2 h3 e.svc v hv
    rcases processLender_success jl as_of l e htm t hf hne ht hobj with
      ⟨kvs, _hp, heq⟩ | ⟨_hp, heq⟩
    · refine ⟨normalize_record (toDict kvs) l as_of, ?_, normalize_asof _ _ _,
        Or.inl ⟨kvs, rfl⟩⟩
      rw [heq]
    · refine ⟨normalize_record (fallback_parse_lender_data t l as_of) l as_of, ?_,
        normalize_asof _ _ _, Or.inr rfl⟩
      rw [heq]
  · intro xs r hr
    obtain ⟨le, _hle, p, hp⟩ := scrape_record_src jl as_of xs r hr
    subst hp
    exact normalize_asof _ _ _

/-- Claim C2 counterexample: the fetch succeeds with markup, yet no record
is appended, because the text reduction raises an unhandled exception and
the per-lender handler logs and skips the lender. -/
theorem c2_counterexample :
    envTextErr.fetch = Except.ok (some "<p>x</p>")
    ∧ (scrape jloadsMini "2026-10-12" [(lender0, envTextErr)]).1 = []
    ∧ (scrape jloadsMini "2026-10-12" [(lender0, envTextErr)]).2
        = [mkFailLine lender0 "Exception: bs4 boom"] := by
  exact ⟨rfl, rfl, rfl⟩

/-- Claim C2 witness: the amended per-lender statement at a concrete
fetched lender taking the fallback path. -/
theorem c2_witness :
    ∃ r, (processLender jloadsMini "2026-10-12" lender0 envFallback).1 = some r
      ∧ dictGet r "As-of Date" = some (Json.str "2026-10-12")
      ∧ ((∃ kvs, r = normalize_record (toDict kvs) lender0 "2026-10-12")
          ∨ r = normalize_record (fallback_parse_lender_data "x" lender0 "2026-10-12")
              lender0 "2026-10-12") :=
  (c2_one_record_per_fetched_lender jloadsMini jloadsMini_shape jloadsMini_empty
      jloadsMini_rbrace "2026-10-12").1 lender0 envFallback "<p>x</p>" "x"
    rfl (by decide) rfl

/-- Claim C3 (confirmed): the Structured Extractor strips the response; a
stripped response starting with an opening brace is decoded whole, and
otherwise the slice from the first opening brace to the last closing brace
inclusive is decoded.  Concretely, the response with leading commentary is
accepted and yields the embedded object, and "not json" yields `None`
(its candidate slice is empty, so decoding fails). -/
theorem c3_parsing_policy :
    candStr (pyStripStr "Sure! \x7b\"Lender Name\": \"X\"\x7d")
        = "\x7b\"Lender Name\": \"X\"\x7d"
    ∧ parse_with_gemini jloadsMini (Except.ok "Sure! \x7b\"Lender Name\": \"X\"\x7d")
        = some (Json.obj [("Lender Name", Json.str "X")])
    ∧ candStr (pyStripStr " \x7b\"a\": \"b\"\x7d ") = "\x7b\"a\": \"b\"\x7d"
    ∧ candStr (pyStripStr "not json") = ""
    ∧ parse_with_gemini jloadsMini (Except.ok "not json") = none := by
  exact ⟨rfl, rfl, rfl, rfl, rfl⟩

/-- Claim C4 (confirmed): `parse_with_gemini` is total over its outcome
oracles (never raises to the caller): a remote-service error yields
`None`, a decode error on the candidate slice yields `None`, and a
successful decode returns the decoded value unchanged — with no schema or
field validation of any kind. -/
theorem c4_no_raise_no_validation (jl : String → Except String Json) (rt : String) :
    (∀ emsg, parse_with_gemini jl (Except.error emsg) = none)
    ∧ (∀ emsg, jl (candStr (pyStripStr rt)) = Except.error emsg →
        parse_with_gemini jl (Except.ok rt) = none)
    ∧ (∀ v, jl (candStr (pyStripStr rt)) = Except.ok v →
        parse_with_gemini jl (Except.ok rt) = some v) := by
  refine ⟨fun _ => rfl, fun emsg h => ?_, fun v h => ?_⟩ <;>
    simp [parse_with_gemini, h]

/-- Claim C4 witness: the three behaviours at concrete inputs under the
concrete decoder. -/
theorem c4_witness :
    parse_with_gemini jloadsMini (Except.error "503 service unavailable") = none
    ∧ parse_with_gemini jloadsMini (Except.ok "not json") = none
    ∧ parse_with_gemini jloadsMini (Except.ok "\x7b\"a\": \"b\"\x7d")
        = some (Json.obj [("a", Json.str "b")]) :=
  ⟨(c4_no_raise_no_validation jloadsMini "").1 "503 service unavailable",
   (c4_no_raise_no_validation jloadsMini "not json").2.1 "decode error" (by rfl),
   (c4_no_raise_no_validation jloadsMini "\x7b\"a\": \"b\"\x7d").2.2
     (Json.obj [("a", Json.str "b")]) (by rfl)⟩

/-- The thirteen fields the fallback parser always sets to "N/A". -/
def naFields : List String :=
  ["Finance Reasons", "Sub-Product Type", "Loan Amount", "Starting Rate",
   "Term Length", "Origination Fee", "Min Time in Business", "Min Revenue",
   "FICO Score", "Online Application Status", "Geography Served",
   "Veteran Programs", "Minority Programs"]

/-- Claim C5 (confirmed): the Fallback Extractor is total; its
"General Product Types" is the comma-joined list of categories with at
least one case-insensitive word-boundary keyword match (each category at
most once, "N/A" when none match); Lender Name, Lender Type and Product
Page URL come from the descriptor; Notes is the fixed fallback marker;
every other field except "As-of Date" is "N/A"; and text containing
"Equipment Financing" yields "Equipment Loans & Leases". -/
theorem c5_fallback_contract :
    (∀ text, (fallback_products text).Nodup)
    ∧ (∀ text p, p ∈ fallback_products text ↔
        ∃ kws, (p, kws) ∈ product_keywords ∧ ∃ k, k ∈ kws ∧ searchBoundary k text = true)
    ∧ (∀ text l d,
        dictGet (fallback_parse_lender_data text l d) "General Product Types"
          = some (Json.str (if (fallback_products text).isEmpty then "N/A"
              else String.intercalate ", " (fallback_products text)))
        ∧ dictGet (fallback_parse_lender_data text l d) "Lender Name"
            = some (Json.str l.name)
        ∧ dictGet (fallback_parse_lender_data text l d) "Lender Type"
            = some (Json.str l.type)
        ∧ dictGet (fallback_parse_lender_data text l d) "Product Page URL"
            = some (Json.str l.url)
        ∧ dictGet (fallback_parse_lender_data text l d) "Notes"
            = some (Json.str "Parsed with fallback parser")
        ∧ dictGet (fallback_parse_lender_data text l d) "As-of Date"
            = some (Json.str d)
        ∧ ∀ k, k ∈ naFields →
            dictGet (fallback_parse_lender_data text l d) k = some (Json.str "N/A"))
    ∧ "Equipment Loans & Leases" ∈ fallback_products "We offer Equipment Financing options" := by
  refine ⟨fallback_products_nodup, fun text p => fallback_products_mem text p,
    fun text l d => ⟨rfl, rfl, rfl, rfl, rfl, rfl, ?_⟩, ?_⟩
  · intro k hk
    fin_cases hk <;> rfl
  · have hev : fallback_products "We offer Equipment Financing options"
        = ["Equipment Loans & Leases"] := by rfl
    rw [hev]
    exact List.mem_singleton.mpr rfl

/-- Claim C5 witness: a field-level instance with its list-membership
hypothesis discharged concretely. -/
theorem c5_witness :
    dictGet (fallback_parse_lender_data "We offer Equipment Financing options"
        lender0 "2026-10-12") "FICO Score" = some (Json.str "N/A") :=
  (c5_fallback_contract.2.2.1 "We offer Equipment Financing options"
      lender0 "2026-10-12").2.2.2.2.2.2 "FICO Score" (by decide)

/-- Claim C6 (corrected), amended statement: when browser launch and page
creation succeed, any failure of the page-load phase (routing, navigation,
content retrieval — covering timeouts and navigation/network errors) makes
the fetcher return the failure sentinel `None` rather than raise, and
`browser.close()` runs on both the normal and the exceptional exit of that
phase.  However, a browser-launch failure propagates as an exception (no
browser acquired), and a page-creation failure also propagates as an
exception with the acquired browser NOT explicitly closed — `launch` and
`new_page` run before the `try`/`finally`. -/
theorem c6_fetch_contract (env : FetchEnv) :
    (env.launch = Except.ok () → env.newPage = Except.ok () →
      (get_page_html env).browserClosed = true
      ∧ (get_page_html env).result =
          (match env.body with
           | Except.ok htm => Except.ok (some htm)
           | Except.error _ => Except.ok none))
    ∧ (∀ m, env.launch = Except.error m →
        get_page_html env = ⟨Except.error m, false, false⟩)
    ∧ (∀ m, env.launch = Except.ok () → env.newPage = Except.error m →
        get_page_html env = ⟨Except.error m, true, false⟩) := by
  obtain ⟨la, np, bd⟩ := env
  refine ⟨fun hl hn => ?_, fun m hl => ?_, fun m hl hn => ?_⟩
  · simp only [] at hl hn
    subst hl
    subst hn
    cases bd with
    | ok htm => exact ⟨rfl, rfl⟩
    | error msg => exact ⟨rfl, rfl⟩
  · simp only [] at hl
    subst hl
    rfl
  · simp only [] at hl hn
    subst hl
    subst hn
    rfl

/-- Claim C6 counterexample: a failing `new_page` makes `get_page_html`
raise to its caller (no failure sentinel is returned) and skips the
explicit `browser.close()` even though a browser was launched — an
exceptional exit path on which the browser resource is not released by
the fetcher itself. -/
theorem c6_counterexample :
    get_page_html ⟨Except.ok (), Except.error "new_page failed", Except.ok "<p></p>"⟩
      = ⟨Except.error "new_page failed", true, false⟩ := rfl

/-- Claim C6 witness: the in-`try` failure path — a navigation timeout —
returns the sentinel with the browser closed. -/
theorem c6_witness :
    (get_page_html ⟨Except.ok (), Except.ok (),
        Except.error "Timeout 30000ms exceeded"⟩).browserClosed = true
    ∧ (get_page_html ⟨Except.ok (), Except.ok (),
        Except.error "Timeout 30000ms exceeded"⟩).result = Except.ok none := by
  have h := (c6_fetch_contract ⟨Except.ok (), Except.ok (),
      Except.error "Timeout 30000ms exceeded"⟩).1 rfl rfl
  exact ⟨h.1, h.2⟩

/-- Claim C7 (corrected), amended statement: the Tabular Writer warns and
writes no file on an empty record sequence; on `N ≥ 1` records whose keys
all lie within the first record's key set, it overwrites the file with a
header row equal to the first record's field names in insertion order,
followed by one row per record — `N + 1` rows in total (a record missing
some keys gets the empty default in those columns).  A record carrying a
key outside the first record's keys, however, makes the underlying
`DictWriter` raise `ValueError` mid-write, so no complete `N + 1`-row
file is produced. -/
theorem c7_writer_contract :
    write_csv [] = CsvResult.noFile
    ∧ ∀ r0 rest, (∀ r, r ∈ r0 :: rest → rowHasExtra (r0.map Prod.fst) r = false) →
        write_csv (r0 :: rest)
          = CsvResult.file ((r0.map Prod.fst) ::
              (r0 :: rest).map (csvRow (r0.map Prod.fst)))
        ∧ ((r0.map Prod.fst) :: (r0 :: rest).map (csvRow (r0.map Prod.fst))).length
            = (r0 :: rest).length + 1 := by
  refine ⟨rfl, fun r0 rest h => ⟨?_, by simp⟩⟩
  show writeRowsAux (r0.map Prod.fst) (r0 :: rest) [r0.map Prod.fst] = _
  rw [writeRowsAux_ok _ _ _ h]
  simp

/-- Claim C7 counterexample: two records where the second carries an extra
key: the writer raises after emitting the header and the first row, so the
output is not a complete header-plus-one-row-per-record file of three
lines. -/
theorem c7_counterexample :
    write_csv [[("a", Json.str "1")], [("a", Json.str "1"), ("b", Json.str "2")]]
      = CsvResult.raised [["a"], ["1"]] := rfl

/-- Claim C7 witness: a homogeneous two-record sequence produces the
three-row file with the first record's keys as header. -/
theorem c7_witness :
    write_csv [[("a", Json.str "1")], [("a", Json.str "2")]]
      = CsvResult.file [["a"], ["1"], ["2"]]
    ∧ ([["a"], ["1"], ["2"]] : List (List String)).length = 2 + 1 := by
  have h := c7_writer_contract.2 [("a", Json.str "1")] [[("a", Json.str "2")]]
    (by decide)
  exact ⟨h.1, rfl⟩

/-- Claim C8 (confirmed): a per-lender failure — a raising or failed
fetch, a raising text reduction, or a non-dict AI result — appends exactly
one line of the form "name | url | reason" to the error log, appends no
record, and leaves the processing of the lenders before and after it
untouched: the run continues to the end of the list. -/
theorem c8_fault_isolation (jl : String → Except String Json) (as_of : String)
    (pre post : List (Lender × ProcEnv)) (l : Lender) (e : ProcEnv)
    (h : lenderFails jl e = true) :
    (processLender jl as_of l e).1 = none
    ∧ (∃ reason, (processLender jl as_of l e).2 = [mkFailLine l reason])
    ∧ scrape jl as_of (pre ++ (l, e) :: post)
        = ((scrape jl as_of pre).1 ++ (scrape jl as_of post).1,
           (scrape jl as_of pre).2 ++ (processLender jl as_of l e).2
             ++ (scrape jl as_of post).2) := by
  obtain ⟨hnone, hline⟩ := processLender_fail jl as_of l e h
  refine ⟨hnone, hline, ?_⟩
  rw [scrape_append]
  simp [scrape, hnone]

/-- Claim C8 witness: a lender whose fetch returns `None`, placed before a
healthy lender: one log line, no record, and the later lender is still
processed and collected. -/
theorem c8_witness :
    (processLender jloadsMini "2026-10-12" lender0 envFetchNone).1 = none
    ∧ (∃ reason, (processLender jloadsMini "2026-10-12" lender0 envFetchNone).2
        = [mkFailLine lender0 reason])
    ∧ scrape jloadsMini "2026-10-12" ([] ++ (lender0, envFetchNone) :: [(lender1, envFallback)])
        = ((scrape jloadsMini "2026-10-12" []).1
             ++ (scrape jloadsMini "2026-10-12" [(lender1, envFallback)]).1,
           (scrape jloadsMini "2026-10-12" []).2
             ++ (processLender jloadsMini "2026-10-12" lender0 envFetchNone).2
             ++ (scrape jloadsMini "2026-10-12" [(lender1, envFallback)]).2) :=
  c8_fault_isolation jloadsMini "2026-10-12" [] [(lender1, envFallback)]
    lender0 envFetchNone (by rfl)

/-- Claim C9 (confirmed): the Structured Extractor's result is `None` or a
JSON object — never an array, string, number, boolean or null — provided
the decoder has the `json.loads` properties that a text starting with an
opening brace can only decode to an object and that the empty text and a
lone closing brace fail; the candidate slice is always empty, a lone
closing brace, or starts with an opening brace. -/
theorem c9_result_none_or_object (jl : String → Except String Json)
    (h1 : ∀ s v, jl s = Except.ok v → startsBrace s.data = true → jIsObj v = true)
    (h2 : ∀ v, jl "" ≠ Except.ok v)
    (h3 : ∀ v, jl (String.mk [rbrace]) ≠ Except.ok v)
    (svc : Except String String) (v : Json)
    (h : parse_with_gemini jl svc = some v) : jIsObj v = true :=
  parse_result_isObj jl h1 h2 h3 svc v h

/-- Claim C9 witness: a concrete decoded result under the concrete
decoder, shown to be an object via the theorem. -/
theorem c9_witness : jIsObj (Json.obj [("a", Json.str "b")]) = true :=
  c9_result_none_or_object jloadsMini jloadsMini_shape jloadsMini_empty
    jloadsMini_rbrace (Except.ok "x\x7b\"a\": \"b\"\x7d")
    (Json.obj [("a", Json.str "b")]) (by rfl)

/-- Claim C10 (confirmed): whenever the Structured Extractor yields no
result for a fetched lender, the run logs the fallback line
"name | url | Gemini failed, used fallback" for that lender AND still
collects the (normalized) fallback record — so an error-log entry does not
imply the lender was dropped from the output. -/
theorem c10_fallback_logs_and_collects (jl : String → Except String Json)
    (as_of : String) (l : Lender) (e : ProcEnv) (htm t : String)
    (hf : e.fetch = Except.ok (some htm)) (hne : htm ≠ "")
    (ht : e.textR = Except.ok t)
    (hp : parse_with_gemini jl e.svc = none) :
    processLender jl as_of l e
      = (some (normalize_record (fallback_parse_lender_data t l as_of) l as_of),
         [mkFailLine l "Gemini failed, used fallback"]) := by
  obtain ⟨fe, te, sv⟩ := e
  simp only [] at hf ht hp
  subst hf
  subst ht
  simp [processLender, hne, hp]

/-- Claim C10 witness: the concrete fallback run both logs and collects. -/
theorem c10_witness :
    processLender jloadsMini "2026-10-12" lender0 envFallback
      = (some (normalize_record (fallback_parse_lender_data "x" lender0 "2026-10-12")
          lender0 "2026-10-12"),
         [mkFailLine lender0 "Gemini failed, used fallback"]) :=
  c10_fallback_logs_and_collects jloadsMini "2026-10-12" lender0 envFallback
    "<p>x</p>" "x" rfl (by decide) rfl (by rfl)
example : candStr "not json" = "" := by rfl
example : candStr "Sure! \x7b\"Lender Name\": \"X\"\x7d" = "\x7b\"Lender Name\": \"X\"\x7d" := by rfl
example : jloadsMini "\x7b\"Lender Name\": \"X\"\x7d" = Except.ok (Json.obj [("Lender Name", Json.str "X")]) := by rfl
example : parse_with_gemini jloadsMini (Except.ok "Sure! \x7b\"Lender Name\": \"X\"\x7d")
    = some (Json.obj [("Lender Name", Json.str "X")]) := by rfl
example : parse_with_gemini jloadsMini (Except.ok "not json") = none := by rfl
